import Mathlib

/-!
Shallow embedding of the agent-loop orchestrator (base_agent.py): the data
model (Tool, Plan, Action, Reflection, Cycle), the tool registry operations,
the Execute dispatch step, the goal-achieved predicate, final-result
generation, the status emitter, and the main reasoning loop of
BaseAgent.process. Language-model calls are modelled by an oracle giving the
structured responses returned on each iteration; Python dictionaries with
fixed key sets become structures; raised exceptions become the error side of
Except. Machine-external tracing calls (opper spans) carry no data relevant
to the behaviour modelled here and are omitted.
-/

namespace AgentSpec

/-- Parameter maps (Python Dict[str, Any]) as association lists of strings. -/
abbrev Params := List (String × String)

/-- A tool: name, description, parameter schema, and an execute capability
that either returns a value or raises (Except.error models a raised
exception, as in Tool.execute which may raise NotImplementedError or any
exception from a concrete implementation). -/
structure Tool where
  name : String
  description : String
  parameters : Params
  execute : Params → Except String String

/-- Plan model (class Plan): thoughts, steps, current_step, goal_achieved. -/
structure Plan where
  thoughts : String
  steps : List String
  current_step : Int
  goal_achieved : Bool
deriving DecidableEq, Repr

/-- Action model (class Action). -/
structure Action where
  thoughts : String
  tool_name : String
  tool_parameters : Params
  expected_outcome : String
  user_message : String
deriving DecidableEq, Repr

/-- Reflection model (class Reflection). -/
structure Reflection where
  thoughts : String
  action_successful : Bool
  lessons_learned : String
  next_steps : String
  goal_progress : String
deriving DecidableEq, Repr

/-- The dictionary returned by _execute_action: a tag ("direct_response",
"tool_execution" or "error"), optional tool_name/parameters keys, a result
payload and a success flag. -/
structure ActionResult where
  type : String
  tool_name : Option String
  parameters : Option Params
  result : String
  success : Bool
deriving DecidableEq, Repr

/-- One recorded cycle of the loop: the dictionary appended to
self.execution_history in process. -/
structure Cycle where
  iteration : Nat
  plan : Plan
  action : Action
  action_result : ActionResult
  reflection : Reflection
  timestamp : Nat
deriving DecidableEq, Repr

/-- The value returned by _generate_final_result: either the default mapping
with keys goal/achieved/iterations/execution_history (no output schema), or
the payload of one extra model call (output schema configured). -/
inductive FinalResult where
  | defaultResult (goal : String) (achieved : Bool) (iterations : Nat)
      (execution_history : List Cycle)
  | structuredResult (payload : String)
deriving DecidableEq, Repr

/-- Payload of an emitted status event, per event type. -/
inductive EventData where
  | goalStart (goal : String) (agent_name : String) (available_tools : List String)
  | planCreated (iteration : Nat) (plan : Plan)
  | actionDecided (iteration : Nat) (action : Action)
  | actionExecuted (iteration : Nat) (action : Action) (result : ActionResult)
  | reflectionCompleted (iteration : Nat) (reflection : Reflection)
  | goalCompleted (goal : String) (achieved : Bool) (iterations : Nat)
      (final_result : FinalResult)
deriving DecidableEq, Repr

/-- An emitted event: (event_type, data) as passed to _emit_status. -/
abbrev Event := String × EventData

/-- An observer callback; Except.error models the callback raising. -/
abbrev Callback := String → EventData → Except String Unit

/-- Oracle for the structured outputs of the model invoker: the Plan, Action
and Reflection returned on iteration i, the time.time() stamp of iteration i,
and the payload of the final-result call when an output schema is configured.
The model invoker is an external collaborator; the oracle ranges over all of
its possible successful structured responses. -/
structure Oracle where
  planAt : Nat → Plan
  actionAt : Nat → Action
  reflectAt : Nat → Reflection
  timeAt : Nat → Nat
  finalPayload : String → List Cycle → String

/-- Agent configuration fixed at construction (BaseAgent.__init__):
output_schema is modelled by whether one is configured. -/
structure Agent where
  name : String
  max_iterations : Nat
  output_schema : Bool
  tools : List Tool
  callback : Option Callback

/-- add_tool: self.tools.append(tool). -/
def add_tool (tools : List Tool) (tool : Tool) : List Tool :=
  tools ++ [tool]

/-- remove_tool: keep the tools whose name differs from tool_name. -/
def remove_tool (tools : List Tool) (tool_name : String) : List Tool :=
  tools.filter (fun tool => tool.name != tool_name)

/-- get_tool: first tool in insertion order whose name matches, else none. -/
def get_tool (tools : List Tool) (tool_name : String) : Option Tool :=
  tools.find? (fun tool => tool.name == tool_name)

/-- is_goal_achieved (default implementation): false on empty history, else
the last cycle's reflection.action_successful. -/
def is_goal_achieved (goal : String) (execution_history : List Cycle) : Bool :=
  match execution_history.getLast? with
  | none => false
  | some last_cycle => last_cycle.reflection.action_successful

/-- _execute_action: direct_response short-circuits before any registry
lookup; a missing tool gives an error result; a raising tool.execute is
caught and converted to an error result. Total: never raises. -/
def execute_action (tools : List Tool) (action : Action) : ActionResult :=
  if action.tool_name == "direct_response" then
    { type := "direct_response"
      tool_name := none
      parameters := none
      result := "Task completed directly without tool usage"
      success := true }
  else
    match get_tool tools action.tool_name with
    | none =>
        { type := "error"
          tool_name := none
          parameters := none
          result := "Tool '" ++ action.tool_name ++ "' not found"
          success := false }
    | some tool =>
        match tool.execute action.tool_parameters with
        | Except.ok result =>
            { type := "tool_execution"
              tool_name := some action.tool_name
              parameters := some action.tool_parameters
              result := result
              success := true }
        | Except.error e =>
            { type := "error"
              tool_name := some action.tool_name
              parameters := some action.tool_parameters
              result := "Error executing tool: " ++ e
              success := false }

/-- _emit_status: call the callback if present; an exception raised by the
callback is caught and discarded, so emission never raises. -/
def emit_status (callback : Option Callback) (event_type : String)
    (data : EventData) : Except String Unit :=
  match callback with
  | none => Except.ok ()
  | some cb =>
      match cb event_type data with
      | Except.ok _ => Except.ok ()
      | Except.error _ => Except.ok ()

/-- _generate_final_result: with no output schema, the default mapping
(goal, achieved, iterations = len(history), execution_history) and no model
call; with a schema, one more model call whose payload is the result. The
second component lists the model calls this step performs. -/
def generate_final_result (ag : Agent) (oracle : Oracle) (goal : String)
    (execution_history : List Cycle) : FinalResult × List String :=
  if !ag.output_schema then
    (FinalResult.defaultResult goal (is_goal_achieved goal execution_history)
      execution_history.length execution_history, [])
  else
    (FinalResult.structuredResult (oracle.finalPayload goal execution_history),
      ["generate_final_result"])

/-- The cycle dictionary built on a full iteration i of process:
iteration index, the plan/action/reflection returned by the model on that
iteration, the result of executing the action, and the timestamp. -/
def stepCycle (ag : Agent) (oracle : Oracle) (i : Nat) : Cycle :=
  { iteration := i
    plan := oracle.planAt i
    action := oracle.actionAt i
    action_result := execute_action ag.tools (oracle.actionAt i)
    reflection := oracle.reflectAt i
    timestamp := oracle.timeAt i }

/-- Mutable loop state of process: the iteration counter, the accumulated
execution_history, the events emitted so far, and the model calls made so
far (by call name, in order). -/
structure LoopState where
  iteration : Nat
  history : List Cycle
  events : List Event
  calls : List String
deriving DecidableEq, Repr

/-- The while-loop of process (while iteration < max_iterations). Each pass
increments the counter, makes the plan call and emits plan_created; if the
plan reports goal_achieved it breaks out at once, otherwise it makes the
decide call (emitting action_decided), executes the action (emitting
action_executed), makes the reflect call (emitting reflection_completed),
appends the cycle to the history and continues. Except.error would be a
raised exception escaping the loop. -/
def processLoop (ag : Agent) (oracle : Oracle) (goal : String)
    (iteration : Nat) (history : List Cycle) (events : List Event)
    (calls : List String) : Except String LoopState :=
  if h : iteration < ag.max_iterations then
    match emit_status ag.callback "plan_created"
        (EventData.planCreated (iteration + 1) (oracle.planAt (iteration + 1))) with
    | Except.error e => Except.error e
    | Except.ok _ =>
        if (oracle.planAt (iteration + 1)).goal_achieved then
          Except.ok
            { iteration := iteration + 1
              history := history
              events := events ++ [("plan_created",
                EventData.planCreated (iteration + 1) (oracle.planAt (iteration + 1)))]
              calls := calls ++ ["plan"] }
        else
          match emit_status ag.callback "action_decided"
              (EventData.actionDecided (iteration + 1) (oracle.actionAt (iteration + 1))) with
          | Except.error e => Except.error e
          | Except.ok _ =>
              match emit_status ag.callback "action_executed"
                  (EventData.actionExecuted (iteration + 1) (oracle.actionAt (iteration + 1))
                    (execute_action ag.tools (oracle.actionAt (iteration + 1)))) with
              | Except.error e => Except.error e
              | Except.ok _ =>
                  match emit_status ag.callback "reflection_completed"
                      (EventData.reflectionCompleted (iteration + 1)
                        (oracle.reflectAt (iteration + 1))) with
                  | Except.error e => Except.error e
                  | Except.ok _ =>
                      processLoop ag oracle goal (iteration + 1)
                        (history ++ [stepCycle ag oracle (iteration + 1)])
                        (events ++
                          [("plan_created", EventData.planCreated (iteration + 1)
                              (oracle.planAt (iteration + 1))),
                           ("action_decided", EventData.actionDecided (iteration + 1)
                              (oracle.actionAt (iteration + 1))),
                           ("action_executed", EventData.actionExecuted (iteration + 1)
                              (oracle.actionAt (iteration + 1))
                              (execute_action ag.tools (oracle.actionAt (iteration + 1)))),
                           ("reflection_completed", EventData.reflectionCompleted (iteration + 1)
                              (oracle.reflectAt (iteration + 1)))])
                        (calls ++ ["plan", "decide", "reflect"])
  else
    Except.ok { iteration := iteration, history := history, events := events, calls := calls }
termination_by ag.max_iterations - iteration
decreasing_by omega

/-- Observable outcome of one process call: the returned final result, the
final execution_history, the emitted events, the model calls made, and the
final value of the loop counter. -/
structure ProcessResult where
  final_result : FinalResult
  execution_history : List Cycle
  events : List Event
  llm_calls : List String
  last_iteration : Nat
deriving DecidableEq, Repr

/-- process(goal): reset the history, emit goal_start, run the reasoning
loop, generate the final result, emit goal_completed (with the pluggable
goal-achieved predicate and the loop counter) and return. -/
def process (ag : Agent) (oracle : Oracle) (goal : String) :
    Except String ProcessResult :=
  match emit_status ag.callback "goal_start"
      (EventData.goalStart goal ag.name (ag.tools.map Tool.name)) with
  | Except.error e => Except.error e
  | Except.ok _ =>
      match processLoop ag oracle goal 0 []
          [("goal_start", EventData.goalStart goal ag.name (ag.tools.map Tool.name))] [] with
      | Except.error e => Except.error e
      | Except.ok s =>
          match emit_status ag.callback "goal_completed"
              (EventData.goalCompleted goal (is_goal_achieved goal s.history)
                s.iteration (generate_final_result ag oracle goal s.history).1) with
          | Except.error e => Except.error e
          | Except.ok _ =>
              Except.ok
                { final_result := (generate_final_result ag oracle goal s.history).1
                  execution_history := s.history
                  events := s.events ++ [("goal_completed",
                    EventData.goalCompleted goal (is_goal_achieved goal s.history)
                      s.iteration (generate_final_result ag oracle goal s.history).1)]
                  llm_calls := s.calls ++ (generate_final_result ag oracle goal s.history).2
                  last_iteration := s.iteration }

/-! ### Characterization of the loop -/

/-- The four events emitted during a full (non-stopping) iteration i. -/
def stepEvents (ag : Agent) (oracle : Oracle) (i : Nat) : List Event :=
  [("plan_created", EventData.planCreated i (oracle.planAt i)),
   ("action_decided", EventData.actionDecided i (oracle.actionAt i)),
   ("action_executed", EventData.actionExecuted i (oracle.actionAt i)
      (execute_action ag.tools (oracle.actionAt i))),
   ("reflection_completed", EventData.reflectionCompleted i (oracle.reflectAt i))]

/-- History recorded by full iterations 1..m. -/
def runCycles (ag : Agent) (oracle : Oracle) (m : Nat) : List Cycle :=
  (List.range' 1 m).map (stepCycle ag oracle)

/-- Events emitted by full iterations 1..m. -/
def runEvents (ag : Agent) (oracle : Oracle) (m : Nat) : List Event :=
  (List.range' 1 m).flatMap (stepEvents ag oracle)

/-- Model calls made by full iterations 1..m. -/
def runCalls (m : Nat) : List String :=
  (List.range' 1 m).flatMap (fun _ => ["plan", "decide", "reflect"])

theorem emit_status_ok (cb : Option Callback) (t : String) (d : EventData) :
    emit_status cb t d = Except.ok () := by
  cases cb with
  | none => rfl
  | some f => cases hfd : f t d <;> simp [emit_status, hfd]

theorem processLoop_done (ag : Agent) (oracle : Oracle) (goal : String)
    (iteration : Nat) (history : List Cycle) (events : List Event)
    (calls : List String) (hge : ag.max_iterations ≤ iteration) :
    processLoop ag oracle goal iteration history events calls =
      Except.ok { iteration := iteration
                  history := history
                  events := events
                  calls := calls } := by
  rw [processLoop]
  simp [Nat.not_lt.mpr hge]

theorem processLoop_stop (ag : Agent) (oracle : Oracle) (goal : String)
    (iteration : Nat) (history : List Cycle) (events : List Event)
    (calls : List String) (hlt : iteration < ag.max_iterations)
    (hach : (oracle.planAt (iteration + 1)).goal_achieved = true) :
    processLoop ag oracle goal iteration history events calls =
      Except.ok { iteration := iteration + 1
                  history := history
                  events := events ++ [("plan_created",
                    EventData.planCreated (iteration + 1) (oracle.planAt (iteration + 1)))]
                  calls := calls ++ ["plan"] } := by
  rw [processLoop]
  simp [hlt, emit_status_ok, hach]

theorem processLoop_step (ag : Agent) (oracle : Oracle) (goal : String)
    (iteration : Nat) (history : List Cycle) (events : List Event)
    (calls : List String) (hlt : iteration < ag.max_iterations)
    (hach : (oracle.planAt (iteration + 1)).goal_achieved = false) :
    processLoop ag oracle goal iteration history events calls =
      processLoop ag oracle goal (iteration + 1)
        (history ++ [stepCycle ag oracle (iteration + 1)])
        (events ++ stepEvents ag oracle (iteration + 1))
        (calls ++ ["plan", "decide", "reflect"]) := by
  conv_lhs => rw [processLoop]
  simp [hlt, emit_status_ok, hach, stepEvents]

theorem processLoop_run_exhaust (ag : Agent) (oracle : Oracle) (goal : String) :
    ∀ (n iteration : Nat) (history : List Cycle) (events : List Event) (calls : List String),
      ag.max_iterations - iteration = n →
      iteration ≤ ag.max_iterations →
      (∀ j, iteration < j → j ≤ ag.max_iterations → (oracle.planAt j).goal_achieved = false) →
      processLoop ag oracle goal iteration history events calls =
        Except.ok { iteration := ag.max_iterations
                    history := history ++ (List.range' (iteration + 1)
                      (ag.max_iterations - iteration)).map (stepCycle ag oracle)
                    events := events ++ (List.range' (iteration + 1)
                      (ag.max_iterations - iteration)).flatMap (stepEvents ag oracle)
                    calls := calls ++ (List.range' (iteration + 1)
                      (ag.max_iterations - iteration)).flatMap
                        (fun _ => ["plan", "decide", "reflect"]) } := by
  intro n
  induction n with
  | zero =>
      intro iteration history events calls hn hle hno
      have heq : iteration = ag.max_iterations := by omega
      subst heq
      rw [processLoop_done ag oracle goal _ _ _ _ (Nat.le_refl _)]
      simp [Nat.sub_self]
  | succ n ih =>
      intro iteration history events calls hn hle hno
      have hlt : iteration < ag.max_iterations := by omega
      have hach : (oracle.planAt (iteration + 1)).goal_achieved = false :=
        hno (iteration + 1) (by omega) (by omega)
      rw [processLoop_step ag oracle goal iteration history events calls hlt hach]
      rw [ih (iteration + 1) _ _ _ (by omega) (by omega)
        (fun j hj1 hj2 => hno j (by omega) hj2)]
      have hrange : ag.max_iterations - iteration =
          (ag.max_iterations - (iteration + 1)) + 1 := by omega
      rw [hrange, List.range'_succ]
      simp [List.append_assoc]

theorem processLoop_run_stop (ag : Agent) (oracle : Oracle) (goal : String) (k : Nat)
    (hkN : k ≤ ag.max_iterations)
    (hach : (oracle.planAt k).goal_achieved = true) :
    ∀ (n iteration : Nat) (history : List Cycle) (events : List Event) (calls : List String),
      k - iteration = n + 1 →
      (∀ j, iteration < j → j < k → (oracle.planAt j).goal_achieved = false) →
      processLoop ag oracle goal iteration history events calls =
        Except.ok { iteration := k
                    history := history ++ (List.range' (iteration + 1)
                      (k - 1 - iteration)).map (stepCycle ag oracle)
                    events := events ++ (List.range' (iteration + 1)
                      (k - 1 - iteration)).flatMap (stepEvents ag oracle) ++
                      [("plan_created", EventData.planCreated k (oracle.planAt k))]
                    calls := calls ++ (List.range' (iteration + 1)
                      (k - 1 - iteration)).flatMap
                        (fun _ => ["plan", "decide", "reflect"]) ++ ["plan"] } := by
  intro n
  induction n with
  | zero =>
      intro iteration history events calls hn hfirst
      have hk : k = iteration + 1 := by omega
      subst hk
      rw [processLoop_stop ag oracle goal iteration history events calls (by omega) hach]
      simp
  | succ n ih =>
      intro iteration history events calls hn hfirst
      have hlt : iteration < ag.max_iterations := by omega
      have hachF : (oracle.planAt (iteration + 1)).goal_achieved = false :=
        hfirst (iteration + 1) (by omega) (by omega)
      rw [processLoop_step ag oracle goal iteration history events calls hlt hachF]
      rw [ih (iteration + 1) _ _ _ (by omega) (fun j hj1 hj2 => hfirst j (by omega) hj2)]
      have hrange : k - 1 - iteration = (k - 1 - (iteration + 1)) + 1 := by omega
      rw [hrange, List.range'_succ]
      simp [List.append_assoc]

theorem process_eq_of_loop (ag : Agent) (oracle : Oracle) (goal : String) (s : LoopState)
    (hs : processLoop ag oracle goal 0 []
      [("goal_start", EventData.goalStart goal ag.name (ag.tools.map Tool.name))] [] =
      Except.ok s) :
    process ag oracle goal = Except.ok
      { final_result := (generate_final_result ag oracle goal s.history).1
        execution_history := s.history
        events := s.events ++ [("goal_completed",
          EventData.goalCompleted goal (is_goal_achieved goal s.history) s.iteration
            (generate_final_result ag oracle goal s.history).1)]
        llm_calls := s.calls ++ (generate_final_result ag oracle goal s.history).2
        last_iteration := s.iteration } := by
  simp [process, emit_status_ok, hs]

/-- Every run either has a first iteration k whose plan reports
goal_achieved (within the budget), or no plan in the budget does. -/
theorem process_dichotomy (ag : Agent) (oracle : Oracle) :
    (∃ k, 1 ≤ k ∧ k ≤ ag.max_iterations ∧ (oracle.planAt k).goal_achieved = true ∧
      (∀ j, 1 ≤ j → j < k → (oracle.planAt j).goal_achieved = false)) ∨
    (∀ j, 1 ≤ j → j ≤ ag.max_iterations → (oracle.planAt j).goal_achieved = false) := by
  by_cases hex : ∃ k, 1 ≤ k ∧ k ≤ ag.max_iterations ∧
      (oracle.planAt k).goal_achieved = true
  · left
    refine ⟨Nat.find hex, (Nat.find_spec hex).1, (Nat.find_spec hex).2.1,
      (Nat.find_spec hex).2.2, ?_⟩
    intro j hj1 hjk
    cases hb : (oracle.planAt j).goal_achieved with
    | false => rfl
    | true =>
        exact absurd ⟨hj1, Nat.le_trans (Nat.le_of_lt hjk) (Nat.find_spec hex).2.1, hb⟩
          (Nat.find_min hex hjk)
  · right
    intro j hj1 hjN
    cases hb : (oracle.planAt j).goal_achieved with
    | false => rfl
    | true => exact absurd ⟨j, hj1, hjN, hb⟩ hex

theorem process_run_stop (ag : Agent) (oracle : Oracle) (goal : String) (k : Nat)
    (hk1 : 1 ≤ k) (hkN : k ≤ ag.max_iterations)
    (hach : (oracle.planAt k).goal_achieved = true)
    (hfirst : ∀ j, 1 ≤ j → j < k → (oracle.planAt j).goal_achieved = false) :
    process ag oracle goal = Except.ok
      { final_result := (generate_final_result ag oracle goal (runCycles ag oracle (k - 1))).1
        execution_history := runCycles ag oracle (k - 1)
        events := ("goal_start", EventData.goalStart goal ag.name (ag.tools.map Tool.name)) ::
          (runEvents ag oracle (k - 1) ++
            [("plan_created", EventData.planCreated k (oracle.planAt k))] ++
            [("goal_completed", EventData.goalCompleted goal
              (is_goal_achieved goal (runCycles ag oracle (k - 1))) k
              (generate_final_result ag oracle goal (runCycles ag oracle (k - 1))).1)])
        llm_calls := runCalls (k - 1) ++ ["plan"] ++
          (generate_final_result ag oracle goal (runCycles ag oracle (k - 1))).2
        last_iteration := k } := by
  have hloop := processLoop_run_stop ag oracle goal k hkN hach (k - 1) 0 []
    [("goal_start", EventData.goalStart goal ag.name (ag.tools.map Tool.name))] []
    (by omega) (fun j h1 h2 => hfirst j (by omega) h2)
  rw [process_eq_of_loop ag oracle goal _ hloop]
  simp [runCycles, runEvents, runCalls]

theorem process_run_exhaust (ag : Agent) (oracle : Oracle) (goal : String)
    (hno : ∀ j, 1 ≤ j → j ≤ ag.max_iterations → (oracle.planAt j).goal_achieved = false) :
    process ag oracle goal = Except.ok
      { final_result := (generate_final_result ag oracle goal
          (runCycles ag oracle ag.max_iterations)).1
        execution_history := runCycles ag oracle ag.max_iterations
        events := ("goal_start", EventData.goalStart goal ag.name (ag.tools.map Tool.name)) ::
          (runEvents ag oracle ag.max_iterations ++
            [("goal_completed", EventData.goalCompleted goal
              (is_goal_achieved goal (runCycles ag oracle ag.max_iterations))
              ag.max_iterations
              (generate_final_result ag oracle goal
                (runCycles ag oracle ag.max_iterations)).1)])
        llm_calls := runCalls ag.max_iterations ++
          (generate_final_result ag oracle goal (runCycles ag oracle ag.max_iterations)).2
        last_iteration := ag.max_iterations } := by
  have hloop := processLoop_run_exhaust ag oracle goal ag.max_iterations 0 []
    [("goal_start", EventData.goalStart goal ag.name (ag.tools.map Tool.name))] []
    (by omega) (by omega) (fun j h1 h2 => hno j (by omega) h2)
  rw [process_eq_of_loop ag oracle goal _ hloop]
  simp [runCycles, runEvents, runCalls]

/-- process never raises once the model responses are given: the only
potentially raising places reached are tool execution and the observer
callback, and both are caught. -/
theorem process_total (ag : Agent) (oracle : Oracle) (goal : String) :
    ∃ r, process ag oracle goal = Except.ok r := by
  rcases process_dichotomy ag oracle with ⟨k, hk1, hkN, hach, hfirst⟩ | hno
  · exact ⟨_, process_run_stop ag oracle goal k hk1 hkN hach hfirst⟩
  · exact ⟨_, process_run_exhaust ag oracle goal hno⟩

theorem runCycles_length (ag : Agent) (oracle : Oracle) (m : Nat) :
    (runCycles ag oracle m).length = m := by
  simp [runCycles]

theorem runCycles_map_iteration (ag : Agent) (oracle : Oracle) (m : Nat) :
    (runCycles ag oracle m).map Cycle.iteration = List.range' 1 m := by
  simp [runCycles, List.map_map, Function.comp_def, stepCycle]

theorem flatMap_const_count (c : List String) (s : String) :
    ∀ l : List Nat, (l.flatMap (fun _ => c)).count s = l.length * c.count s := by
  intro l
  induction l with
  | nil => simp
  | cons a t ih =>
      simp only [List.flatMap_cons, List.count_append, ih, List.length_cons]
      rw [Nat.succ_mul]
      omega

theorem runCalls_count_plan (m : Nat) : (runCalls m).count "plan" = m := by
  simp [runCalls, flatMap_const_count]

theorem runCalls_count_decide (m : Nat) : (runCalls m).count "decide" = m := by
  simp [runCalls, flatMap_const_count]

theorem runCalls_count_reflect (m : Nat) : (runCalls m).count "reflect" = m := by
  simp [runCalls, flatMap_const_count]

theorem runEvents_executed_count (ag : Agent) (oracle : Oracle) :
    ∀ l : List Nat,
      ((l.flatMap (stepEvents ag oracle)).filter
        (fun ev => ev.1 == "action_executed")).length = l.length := by
  intro l
  induction l with
  | nil => rfl
  | cons a t ih => simp [List.flatMap_cons, List.filter_append, stepEvents, ih]

theorem processLoop_history_prefix (ag : Agent) (oracle : Oracle) (goal : String) :
    ∀ (n iteration : Nat) (history : List Cycle) (events : List Event)
      (calls : List String) (s : LoopState),
      ag.max_iterations - iteration = n →
      processLoop ag oracle goal iteration history events calls = Except.ok s →
      history <+: s.history := by
  intro n
  induction n with
  | zero =>
      intro iteration history events calls s hn hok
      rw [processLoop_done ag oracle goal _ _ _ _ (by omega)] at hok
      injection hok with hok
      subst hok
      exact List.prefix_rfl
  | succ n ih =>
      intro iteration history events calls s hn hok
      have hlt : iteration < ag.max_iterations := by omega
      cases hach : (oracle.planAt (iteration + 1)).goal_achieved with
      | true =>
          rw [processLoop_stop ag oracle goal _ _ _ _ hlt hach] at hok
          injection hok with hok
          subst hok
          exact List.prefix_rfl
      | false =>
          rw [processLoop_step ag oracle goal _ _ _ _ hlt hach] at hok
          exact List.IsPrefix.trans
            (List.prefix_append history [stepCycle ag oracle (iteration + 1)])
            (ih (iteration + 1) _ _ _ s (by omega) hok)

theorem generate_final_result_calls (ag : Agent) (oracle : Oracle) (goal : String)
    (history : List Cycle) :
    (generate_final_result ag oracle goal history).2 = [] ∨
    (generate_final_result ag oracle goal history).2 = ["generate_final_result"] := by
  unfold generate_final_result
  cases ag.output_schema <;> simp

/-! ### Concrete instances used in the witnesses -/

/-- A tool that always succeeds, like a calculator add tool. -/
def addTool : Tool :=
  { name := "add"
    description := "Add two numbers"
    parameters := [("a", "first number"), ("b", "second number")]
    execute := fun _ => Except.ok "7.0" }

/-- A tool whose execute always raises. -/
def boomTool : Tool :=
  { name := "boom"
    description := "Always fails"
    parameters := []
    execute := fun _ => Except.error "division by zero" }

/-- A raising impostor registered under the reserved name direct_response. -/
def impostorTool : Tool :=
  { name := "direct_response"
    description := "Should never be run"
    parameters := []
    execute := fun _ => Except.error "impostor executed" }

/-- An observer callback that raises on every event. -/
def raisingCallback : Callback := fun _ _ => Except.error "observer failure"

def sampleAgent : Agent :=
  { name := "calculator"
    max_iterations := 10
    output_schema := false
    tools := [addTool, boomTool]
    callback := none }

def samplePlan (b : Bool) : Plan :=
  { thoughts := "think"
    steps := ["compute 3+4"]
    current_step := 0
    goal_achieved := b }

def sampleAction : Action :=
  { thoughts := "use add"
    tool_name := "add"
    tool_parameters := [("a", "3"), ("b", "4")]
    expected_outcome := "7"
    user_message := "adding" }

def sampleReflection : Reflection :=
  { thoughts := "went well"
    action_successful := true
    lessons_learned := "none"
    next_steps := "stop"
    goal_progress := "done" }

/-- Oracle whose plan first reports goal_achieved on iteration 2. -/
def sampleOracle : Oracle :=
  { planAt := fun i => samplePlan (i == 2)
    actionAt := fun _ => sampleAction
    reflectAt := fun _ => sampleReflection
    timeAt := fun i => i
    finalPayload := fun _ _ => "payload" }

/-! ### Claims -/

/-- C7: add_tool appends at the end preserving insertion order and permits
duplicate names; get_tool returns the first tool in insertion order whose
name matches exactly (so an added duplicate never shadows an earlier match),
or none when no name matches; remove_tool removes every tool with the given
name and nothing else. -/
theorem C7_tool_registry :
    (∀ (tools : List Tool) (tool : Tool), add_tool tools tool = tools ++ [tool]) ∧
    (∀ (tools : List Tool) (n : String) (tool : Tool),
      get_tool tools n = some tool →
      tool.name = n ∧ ∃ l1 l2, tools = l1 ++ tool :: l2 ∧ ∀ u ∈ l1, u.name ≠ n) ∧
    (∀ (tools : List Tool) (n : String),
      get_tool tools n = none ↔ ∀ tool ∈ tools, tool.name ≠ n) ∧
    (∀ (tools : List Tool) (tool t : Tool) (n : String),
      get_tool tools n = some t → get_tool (add_tool tools tool) n = some t) ∧
    (∀ (tools : List Tool) (n : String) (u : Tool),
      u ∈ remove_tool tools n ↔ u ∈ tools ∧ u.name ≠ n) := by
  refine ⟨fun tools tool => rfl, ?_, ?_, ?_, ?_⟩
  · intro tools n tool h
    rw [get_tool, List.find?_eq_some] at h
    obtain ⟨hname, l1, l2, heq, hbefore⟩ := h
    refine ⟨by simpa using hname, l1, l2, heq, ?_⟩
    intro u hu
    simpa using hbefore u hu
  · intro tools n
    rw [get_tool, List.find?_eq_none]
    constructor
    · intro h tool hmem
      simpa using h tool hmem
    · intro h tool hmem
      simpa using h tool hmem
  · intro tools tool t n h
    rw [get_tool] at h
    rw [add_tool, get_tool, List.find?_append, h]
    rfl
  · intro tools n u
    rw [remove_tool, List.mem_filter]
    simp

theorem gen_calls_count (ag : Agent) (oracle : Oracle) (goal : String)
    (history : List Cycle) (s : String) (hs : s ≠ "generate_final_result") :
    ((generate_final_result ag oracle goal history).2).count s = 0 := by
  rcases generate_final_result_calls ag oracle goal history with h | h <;>
    simp [h, List.count_cons, hs]

/-- C2: for a non-direct_response action the Execute step never raises: a
missing tool becomes an error result with the not-found message and
success=false, and a raising tool.execute is caught and becomes an error
result with success=false; process always completes with a final result
generated from the history, and every decide call is followed by a reflect
call on the executed result (one recorded cycle per decide/reflect pair). -/
theorem C2_execute_never_raises :
    (∀ (tools : List Tool) (action : Action),
      action.tool_name ≠ "direct_response" →
      get_tool tools action.tool_name = none →
      execute_action tools action =
        { type := "error"
          tool_name := none
          parameters := none
          result := "Tool '" ++ action.tool_name ++ "' not found"
          success := false }) ∧
    (∀ (tools : List Tool) (action : Action) (tool : Tool) (e : String),
      action.tool_name ≠ "direct_response" →
      get_tool tools action.tool_name = some tool →
      tool.execute action.tool_parameters = Except.error e →
      execute_action tools action =
        { type := "error"
          tool_name := some action.tool_name
          parameters := some action.tool_parameters
          result := "Error executing tool: " ++ e
          success := false }) ∧
    (∀ (ag : Agent) (oracle : Oracle) (goal : String),
      ∃ r, process ag oracle goal = Except.ok r ∧
        r.final_result = (generate_final_result ag oracle goal r.execution_history).1 ∧
        r.llm_calls.count "reflect" = r.llm_calls.count "decide" ∧
        r.llm_calls.count "reflect" = r.execution_history.length) := by
  refine ⟨?_, ?_, ?_⟩
  · intro tools action hne hnone
    simp [execute_action, hne, hnone]
  · intro tools action tool e hne hsome herr
    simp [execute_action, hne, hsome, herr]
  · intro ag oracle goal
    rcases process_dichotomy ag oracle with ⟨k, hk1, hkN, hach, hfirst⟩ | hno
    · refine ⟨_, process_run_stop ag oracle goal k hk1 hkN hach hfirst, rfl, ?_, ?_⟩ <;>
        simp [runCycles_length, runCalls_count_reflect, runCalls_count_decide,
          gen_calls_count, List.count_cons]
    · refine ⟨_, process_run_exhaust ag oracle goal hno, rfl, ?_, ?_⟩ <;>
        simp [runCycles_length, runCalls_count_reflect, runCalls_count_decide,
          gen_calls_count, List.count_cons]

/-- C10: when the action's tool_name is the sentinel direct_response, the
Execute step returns the fixed successful direct_response result without
consulting the registry: the result is the same for every registry, so a
registered tool named direct_response is never executed. -/
theorem C10_direct_response (tools : List Tool) (action : Action)
    (h : action.tool_name = "direct_response") :
    execute_action tools action =
      { type := "direct_response"
        tool_name := none
        parameters := none
        result := "Task completed directly without tool usage"
        success := true } ∧
    (∀ tools2 : List Tool, execute_action tools2 action = execute_action tools action) := by
  constructor
  · simp [execute_action, h]
  · intro tools2
    simp [execute_action, h]

theorem getLast?_cons_append_singleton {α : Type} (a x : α) (l : List α) :
    (a :: (l ++ [x])).getLast? = some x := by
  rw [← List.cons_append, List.getLast?_concat]

/-- C6: with no output schema configured, the final result is exactly the
default mapping (goal, achieved, iterations, execution_history) where
achieved applies the goal-achieved predicate to the final history and
iterations is the number of recorded cycles; no model call is made to
produce it. -/
theorem C6_default_final_result :
    (∀ (ag : Agent) (oracle : Oracle) (goal : String) (history : List Cycle),
      ag.output_schema = false →
      generate_final_result ag oracle goal history =
        (FinalResult.defaultResult goal (is_goal_achieved goal history)
          history.length history, [])) ∧
    (∀ (ag : Agent) (oracle : Oracle) (goal : String) (r : ProcessResult),
      ag.output_schema = false →
      process ag oracle goal = Except.ok r →
      r.final_result = FinalResult.defaultResult goal
        (is_goal_achieved goal r.execution_history)
        r.execution_history.length r.execution_history ∧
      r.llm_calls.count "generate_final_result" = 0) := by
  constructor
  · intro ag oracle goal history hs
    simp [generate_final_result, hs]
  · intro ag oracle goal r hs hr
    rcases process_dichotomy ag oracle with ⟨k, hk1, hkN, hach, hfirst⟩ | hno
    · rw [process_run_stop ag oracle goal k hk1 hkN hach hfirst] at hr
      injection hr with hr
      subst hr
      constructor
      · simp [generate_final_result, hs]
      · simp [generate_final_result, hs, runCalls, flatMap_const_count, List.count_cons]
    · rw [process_run_exhaust ag oracle goal hno] at hr
      injection hr with hr
      subst hr
      constructor
      · simp [generate_final_result, hs]
      · simp [generate_final_result, hs, runCalls, flatMap_const_count, List.count_cons]

/-- C5: the default goal-achieved predicate is true iff the history is
non-empty and its last cycle's reflection has action_successful = true; in
process it feeds only the achieved field of the reported result and the
goal_completed event, while the number of iterations run and of cycles
recorded depends only on the plans' goal_achieved flags — never on this
predicate or the reflections it reads. -/
theorem C5_goal_predicate :
    (∀ (goal : String) (history : List Cycle),
      is_goal_achieved goal history = true ↔
      ∃ c, history.getLast? = some c ∧ c.reflection.action_successful = true) ∧
    (∀ (ag : Agent) (oracle : Oracle) (goal : String) (r : ProcessResult),
      process ag oracle goal = Except.ok r →
      (ag.output_schema = false →
        r.final_result = FinalResult.defaultResult goal
          (is_goal_achieved goal r.execution_history)
          r.execution_history.length r.execution_history) ∧
      r.events.getLast? = some ("goal_completed", EventData.goalCompleted goal
        (is_goal_achieved goal r.execution_history) r.last_iteration r.final_result)) ∧
    (∀ (ag : Agent) (o1 o2 : Oracle) (goal1 goal2 : String),
      o1.planAt = o2.planAt →
      ∃ r1 r2, process ag o1 goal1 = Except.ok r1 ∧
        process ag o2 goal2 = Except.ok r2 ∧
        r1.last_iteration = r2.last_iteration ∧
        r1.execution_history.length = r2.execution_history.length) := by
  refine ⟨?_, ?_, ?_⟩
  · intro goal history
    rcases h : history.getLast? with - | c <;> simp [is_goal_achieved, h]
  · intro ag oracle goal r hr
    rcases process_dichotomy ag oracle with ⟨k, hk1, hkN, hach, hfirst⟩ | hno
    · rw [process_run_stop ag oracle goal k hk1 hkN hach hfirst] at hr
      injection hr with hr
      subst hr
      refine ⟨fun hs => by simp [generate_final_result, hs], ?_⟩
      rw [getLast?_cons_append_singleton]
    · rw [process_run_exhaust ag oracle goal hno] at hr
      injection hr with hr
      subst hr
      refine ⟨fun hs => by simp [generate_final_result, hs], ?_⟩
      rw [getLast?_cons_append_singleton]
  · intro ag o1 o2 goal1 goal2 hplan
    rcases process_dichotomy ag o1 with ⟨k, hk1, hkN, hach, hfirst⟩ | hno
    · refine ⟨_, _, process_run_stop ag o1 goal1 k hk1 hkN hach hfirst,
        process_run_stop ag o2 goal2 k hk1 hkN (by rw [← hplan]; exact hach)
          (fun j h1 h2 => by rw [← hplan]; exact hfirst j h1 h2), rfl, ?_⟩
      simp [runCycles_length]
    · refine ⟨_, _, process_run_exhaust ag o1 goal1 hno,
        process_run_exhaust ag o2 goal2
          (fun j h1 h2 => by rw [← hplan]; exact hno j h1 h2), rfl, ?_⟩
      simp [runCycles_length]

/-- C4: with max_iterations = 0 the loop body never runs: no plan, decide or
reflect model call is made, the history stays empty, and process goes
straight to final-result generation (with the empty-history default mapping
and no model calls at all when no output schema is configured). -/
theorem C4_zero_iterations (ag : Agent) (oracle : Oracle) (goal : String)
    (h0 : ag.max_iterations = 0) :
    ∃ r, process ag oracle goal = Except.ok r ∧
      r.execution_history = [] ∧
      r.llm_calls.count "plan" = 0 ∧
      r.llm_calls.count "decide" = 0 ∧
      r.llm_calls.count "reflect" = 0 ∧
      r.final_result = (generate_final_result ag oracle goal []).1 ∧
      (ag.output_schema = false →
        r.final_result = FinalResult.defaultResult goal false 0 [] ∧
        r.llm_calls = []) := by
  have hno : ∀ j, 1 ≤ j → j ≤ ag.max_iterations →
      (oracle.planAt j).goal_achieved = false := by
    intro j h1 h2
    rw [h0] at h2
    omega
  refine ⟨_, process_run_exhaust ag oracle goal hno, ?_, ?_, ?_, ?_, ?_, ?_⟩ <;>
    simp [h0, runCycles, runCalls, gen_calls_count]
  intro hs
  simp [generate_final_result, hs, is_goal_achieved]

/-- C1: every run records at most max_iterations cycles; and when the plan
first reports goal_achieved on iteration k within the budget, the run makes
exactly k plan calls, records exactly k-1 cycles, and makes exactly k-1
decide calls, k-1 reflect calls and k-1 action executions — so none of
Decide-Action, Execute or Reflect runs on iteration k. -/
theorem C1_iteration_budget (ag : Agent) (oracle : Oracle) (goal : String) :
    (∀ r, process ag oracle goal = Except.ok r →
      r.execution_history.length ≤ ag.max_iterations) ∧
    (∀ k, 1 ≤ k → k ≤ ag.max_iterations →
      (oracle.planAt k).goal_achieved = true →
      (∀ j, 1 ≤ j → j < k → (oracle.planAt j).goal_achieved = false) →
      ∃ r, process ag oracle goal = Except.ok r ∧
        r.llm_calls.count "plan" = k ∧
        r.execution_history.length = k - 1 ∧
        r.llm_calls.count "decide" = k - 1 ∧
        r.llm_calls.count "reflect" = k - 1 ∧
        (r.events.filter (fun ev => ev.1 == "action_executed")).length = k - 1) := by
  constructor
  · intro r hr
    rcases process_dichotomy ag oracle with ⟨k, hk1, hkN, hach, hfirst⟩ | hno
    · rw [process_run_stop ag oracle goal k hk1 hkN hach hfirst] at hr
      injection hr with hr
      subst hr
      simp only [runCycles_length]
      omega
    · rw [process_run_exhaust ag oracle goal hno] at hr
      injection hr with hr
      subst hr
      simp [runCycles_length]
  · intro k hk1 hkN hach hfirst
    refine ⟨_, process_run_stop ag oracle goal k hk1 hkN hach hfirst, ?_, ?_, ?_, ?_, ?_⟩
    · simp only [List.count_append, runCalls_count_plan,
        gen_calls_count ag oracle goal (runCycles ag oracle (k - 1)) "plan" (by decide),
        List.count_cons, List.count_nil]
      simp
      omega
    · simp [runCycles_length]
    · simp [List.count_append, runCalls_count_decide,
        gen_calls_count ag oracle goal (runCycles ag oracle (k - 1)) "decide" (by decide),
        List.count_cons]
    · simp [List.count_append, runCalls_count_reflect,
        gen_calls_count ag oracle goal (runCycles ag oracle (k - 1)) "reflect" (by decide),
        List.count_cons]
    · simp only [runEvents, List.filter_append, List.filter_cons, List.length_append]
      simp [runEvents_executed_count ag oracle (List.range' 1 (k - 1))]

/-- C3: after any completed run the recorded cycles carry iteration indices
exactly 1, 2, ..., len(history) in order (strictly increasing, no gaps);
and the loop only ever appends to the history: whatever history it starts
from is a prefix of the history it ends with. -/
theorem C3_history_indices (ag : Agent) (oracle : Oracle) (goal : String) :
    (∀ r, process ag oracle goal = Except.ok r →
      r.execution_history.map Cycle.iteration =
        List.range' 1 r.execution_history.length) ∧
    (∀ (iteration : Nat) (history : List Cycle) (events : List Event)
      (calls : List String) (s : LoopState),
      processLoop ag oracle goal iteration history events calls = Except.ok s →
      history <+: s.history) := by
  constructor
  · intro r hr
    rcases process_dichotomy ag oracle with ⟨k, hk1, hkN, hach, hfirst⟩ | hno
    · rw [process_run_stop ag oracle goal k hk1 hkN hach hfirst] at hr
      injection hr with hr
      subst hr
      simp [runCycles_map_iteration, runCycles_length]
    · rw [process_run_exhaust ag oracle goal hno] at hr
      injection hr with hr
      subst hr
      simp [runCycles_map_iteration, runCycles_length]
  · intro iteration history events calls s hok
    exact processLoop_history_prefix ag oracle goal (ag.max_iterations - iteration)
      iteration history events calls s rfl hok

/-- C8: the status emitter catches and discards every exception the observer
callback raises, and the callback has no influence on the run: with any
callback installed (including one that raises on every event), process
returns the same successful result — same history, same final result — as
with no callback. -/
theorem C8_observer_exceptions :
    (∀ (cb : Option Callback) (t : String) (d : EventData),
      emit_status cb t d = Except.ok ()) ∧
    (∀ (ag : Agent) (oracle : Oracle) (goal : String) (cb : Option Callback),
      ∃ r, process { ag with callback := cb } oracle goal = Except.ok r ∧
        process ag oracle goal = Except.ok r) := by
  constructor
  · exact emit_status_ok
  · intro ag oracle goal cb
    rcases process_dichotomy ag oracle with ⟨k, hk1, hkN, hach, hfirst⟩ | hno
    · exact ⟨_,
        process_run_stop { ag with callback := cb } oracle goal k hk1 hkN hach hfirst,
        process_run_stop ag oracle goal k hk1 hkN hach hfirst⟩
    · exact ⟨_, process_run_exhaust { ag with callback := cb } oracle goal hno,
        process_run_exhaust ag oracle goal hno⟩

/-- C9: when the loop stops because the plan of iteration k reports
goal_achieved, the goal_completed event carries iterations = k (the loop
counter) while the default final result carries iterations = k-1 (the
recorded cycle count), one less; the two agree exactly when the loop ends
by exhausting max_iterations. -/
theorem C9_loop_counter_vs_cycles (ag : Agent) (oracle : Oracle) (goal : String) :
    (∀ k, 1 ≤ k → k ≤ ag.max_iterations →
      (oracle.planAt k).goal_achieved = true →
      (∀ j, 1 ≤ j → j < k → (oracle.planAt j).goal_achieved = false) →
      ∃ r, process ag oracle goal = Except.ok r ∧
        r.last_iteration = k ∧
        r.execution_history.length = k - 1 ∧
        ("goal_completed", EventData.goalCompleted goal
          (is_goal_achieved goal r.execution_history) k r.final_result) ∈ r.events ∧
        (ag.output_schema = false →
          r.final_result = FinalResult.defaultResult goal
            (is_goal_achieved goal r.execution_history) (k - 1) r.execution_history) ∧
        r.last_iteration = r.execution_history.length + 1) ∧
    ((∀ j, 1 ≤ j → j ≤ ag.max_iterations → (oracle.planAt j).goal_achieved = false) →
      ∃ r, process ag oracle goal = Except.ok r ∧
        r.last_iteration = ag.max_iterations ∧
        r.execution_history.length = ag.max_iterations ∧
        r.last_iteration = r.execution_history.length) := by
  constructor
  · intro k hk1 hkN hach hfirst
    refine ⟨_, process_run_stop ag oracle goal k hk1 hkN hach hfirst,
      rfl, by simp [runCycles_length], by simp, ?_, ?_⟩
    · intro hs
      simp [generate_final_result, hs, runCycles_length]
    · simp only [runCycles_length]
      omega
  · intro hno
    refine ⟨_, process_run_exhaust ag oracle goal hno,
      rfl, by simp [runCycles_length], by simp [runCycles_length]⟩

/-! ### Witnesses -/

/-- An action naming a tool that is not registered. -/
def missingAction : Action :=
  { thoughts := "try multiply"
    tool_name := "multiply"
    tool_parameters := []
    expected_outcome := "a product"
    user_message := "multiplying" }

/-- An action naming the registered tool whose execute raises. -/
def boomAction : Action :=
  { thoughts := "try boom"
    tool_name := "boom"
    tool_parameters := []
    expected_outcome := "a bang"
    user_message := "booming" }

/-- An action that answers directly without any tool. -/
def directAction : Action :=
  { thoughts := "answer directly"
    tool_name := "direct_response"
    tool_parameters := []
    expected_outcome := "done"
    user_message := "responding" }

theorem C1_iteration_budget_witness :
    ∃ r, process sampleAgent sampleOracle "compute" = Except.ok r ∧
      r.llm_calls.count "plan" = 2 ∧
      r.execution_history.length = 1 ∧
      r.llm_calls.count "decide" = 1 ∧
      r.llm_calls.count "reflect" = 1 ∧
      (r.events.filter (fun ev => ev.1 == "action_executed")).length = 1 :=
  (C1_iteration_budget sampleAgent sampleOracle "compute").2 2 (by decide) (by decide)
    (by decide)
    (fun j h1 h2 => by
      have hj : j = 1 := by omega
      subst hj
      decide)

theorem C2_execute_never_raises_witness :
    (execute_action [addTool, boomTool] missingAction =
      { type := "error"
        tool_name := none
        parameters := none
        result := "Tool 'multiply' not found"
        success := false }) ∧
    (execute_action [addTool, boomTool] boomAction =
      { type := "error"
        tool_name := some "boom"
        parameters := some []
        result := "Error executing tool: division by zero"
        success := false }) ∧
    (∃ r, process sampleAgent sampleOracle "compute" = Except.ok r ∧
      r.final_result = (generate_final_result sampleAgent sampleOracle "compute"
        r.execution_history).1 ∧
      r.llm_calls.count "reflect" = r.llm_calls.count "decide" ∧
      r.llm_calls.count "reflect" = r.execution_history.length) :=
  ⟨C2_execute_never_raises.1 [addTool, boomTool] missingAction (by decide) rfl,
   C2_execute_never_raises.2.1 [addTool, boomTool] boomAction boomTool
     "division by zero" (by decide) rfl rfl,
   C2_execute_never_raises.2.2 sampleAgent sampleOracle "compute"⟩

theorem C3_history_indices_witness :
    ∃ r, process sampleAgent sampleOracle "compute" = Except.ok r ∧
      r.execution_history.map Cycle.iteration =
        List.range' 1 r.execution_history.length := by
  obtain ⟨r, hr⟩ := process_total sampleAgent sampleOracle "compute"
  exact ⟨r, hr, (C3_history_indices sampleAgent sampleOracle "compute").1 r hr⟩

theorem C4_zero_iterations_witness :
    ∃ r, process { sampleAgent with max_iterations := 0 } sampleOracle "compute" =
        Except.ok r ∧
      r.execution_history = [] ∧
      r.llm_calls.count "plan" = 0 ∧
      r.llm_calls.count "decide" = 0 ∧
      r.llm_calls.count "reflect" = 0 ∧
      r.final_result = (generate_final_result { sampleAgent with max_iterations := 0 }
        sampleOracle "compute" []).1 ∧
      (({ sampleAgent with max_iterations := 0 } : Agent).output_schema = false →
        r.final_result = FinalResult.defaultResult "compute" false 0 [] ∧
        r.llm_calls = []) :=
  C4_zero_iterations { sampleAgent with max_iterations := 0 } sampleOracle "compute" rfl

theorem C5_goal_predicate_witness :
    ∃ r, process sampleAgent sampleOracle "compute" = Except.ok r ∧
      r.events.getLast? = some ("goal_completed", EventData.goalCompleted "compute"
        (is_goal_achieved "compute" r.execution_history) r.last_iteration
        r.final_result) := by
  obtain ⟨r, hr⟩ := process_total sampleAgent sampleOracle "compute"
  exact ⟨r, hr, (C5_goal_predicate.2.1 sampleAgent sampleOracle "compute" r hr).2⟩

theorem C6_default_final_result_witness :
    ∃ r, process sampleAgent sampleOracle "compute" = Except.ok r ∧
      r.final_result = FinalResult.defaultResult "compute"
        (is_goal_achieved "compute" r.execution_history)
        r.execution_history.length r.execution_history ∧
      r.llm_calls.count "generate_final_result" = 0 := by
  obtain ⟨r, hr⟩ := process_total sampleAgent sampleOracle "compute"
  exact ⟨r, hr, C6_default_final_result.2 sampleAgent sampleOracle "compute" r rfl hr⟩

theorem C7_tool_registry_witness :
    boomTool.name = "boom" ∧
    ∃ l1 l2, [addTool, boomTool] = l1 ++ boomTool :: l2 ∧ ∀ u ∈ l1, u.name ≠ "boom" :=
  C7_tool_registry.2.1 [addTool, boomTool] "boom" boomTool rfl

theorem C8_observer_exceptions_witness :
    ∃ r, process { sampleAgent with callback := some raisingCallback } sampleOracle
        "compute" = Except.ok r ∧
      process sampleAgent sampleOracle "compute" = Except.ok r :=
  C8_observer_exceptions.2 sampleAgent sampleOracle "compute" (some raisingCallback)

theorem C9_loop_counter_vs_cycles_witness :
    ∃ r, process sampleAgent sampleOracle "compute" = Except.ok r ∧
      r.last_iteration = 2 ∧
      r.execution_history.length = 1 ∧
      ("goal_completed", EventData.goalCompleted "compute"
        (is_goal_achieved "compute" r.execution_history) 2 r.final_result) ∈ r.events ∧
      (sampleAgent.output_schema = false →
        r.final_result = FinalResult.defaultResult "compute"
          (is_goal_achieved "compute" r.execution_history) 1 r.execution_history) ∧
      r.last_iteration = r.execution_history.length + 1 :=
  (C9_loop_counter_vs_cycles sampleAgent sampleOracle "compute").1 2 (by decide)
    (by decide) (by decide)
    (fun j h1 h2 => by
      have hj : j = 1 := by omega
      subst hj
      decide)

theorem C10_direct_response_witness :
    execute_action [impostorTool] directAction =
      { type := "direct_response"
        tool_name := none
        parameters := none
        result := "Task completed directly without tool usage"
        success := true } :=
  (C10_direct_response [impostorTool] directAction rfl).1

end AgentSpec
